import Mathlib

/-!
# Verification of the Cherry waitlist service

A shallow embedding of the waitlist signup service with referrals:
* data model from `prisma/schema.prisma` (model `Subscriber`),
* signup endpoint from `src/app/api/waitlist/route.ts` (`POST`),
* count endpoint from `src/app/api/waitlist/count/route.ts` (`GET`),
* referral-stats endpoint (`GET`, with the email-masking regex).

The database is modelled as a list of subscriber rows; `prisma.subscriber.findUnique`
becomes `List.find?` on the relevant unique column, `count` becomes `List.length`,
and the `referrals` relation (`referredBy` → `id`) becomes a `List.filter`.
Randomness (`Math.random().toString(36)`) and generated ids/timestamps are passed
in as explicit parameters.
-/

namespace Waitlist

/-- A row of the `Subscriber` table (`prisma/schema.prisma`).
`createdAt` is modelled as a natural-number timestamp; `updatedAt` is omitted
(no mutation path exists).  `referralCode` is `String?` in the schema but every
row the service creates carries one, so it is modelled as `String`. -/
structure Subscriber where
  id : String
  email : String
  name : Option String
  referralCode : String
  referredBy : Option String
  createdAt : Nat
  verified : Bool
deriving Repr, DecidableEq

/-- The parsed JSON body of a signup request, after JSON decoding: each of the
three fields of `waitlistSchema` is a string or absent. -/
structure Body where
  email : Option String
  name : Option String
  referralCode : Option String
deriving Repr, DecidableEq

/-- Result of `waitlistSchema.safeParse`: the parsed `{email, name, referralCode}`. -/
structure ParsedData where
  email : String
  name : Option String
  referralCode : Option String
deriving Repr, DecidableEq

/-- `waitlistSchema.safeParse` (route.ts lines 6–10):
`email: z.string().email()`, `name: z.string().optional()`,
`referralCode: z.string().optional()`.  The zod email-format test
(`z.string().email()`) lives in the zod library, outside this repository, so it
is abstracted as the Boolean parameter `emailOk`; no theorem below depends on
which strings it accepts.  A missing `email` field or one rejected by `emailOk`
yields the field error list; `name` and `referralCode` are unconstrained
optional strings. -/
def validateWaitlist (emailOk : String → Bool) (b : Body) :
    Except (List String) ParsedData :=
  match b.email with
  | none => .error ["Required"]
  | some e =>
      if emailOk e then .ok ⟨e, b.name, b.referralCode⟩
      else .error ["Please enter a valid email address"]

/-- `generateUniqueCode` (route.ts lines 12–15):
`Math.random().toString(36).substring(2, 10).toUpperCase()`.
`randStr` is the string returned by `Math.random().toString(36)`
(e.g. `"0.4fzyo82mvyr"`); `substring(2, 10)` keeps characters 2..10, and
`toUpperCase()` uppercases each of them (they are ASCII base-36 digits,
so it acts character by character). -/
def generateUniqueCode (randStr : String) : String :=
  ⟨((randStr.data.drop 2).take 8).map Char.toUpper⟩

/-- Outcome of the signup `POST` handler. -/
inductive SignupResult where
  | validationError (errors : List String)
  | duplicateEmail
  | invalidReferralCode
  | serverError
  | success (referralCode : String)
deriving Repr, DecidableEq

/-- The signup `POST` handler (route.ts lines 17–104), state-passing style:
returns the HTTP outcome together with the table after the request.

Order of checks, as in the source: validation, then email uniqueness
(`findUnique` on `email`), then — only when `referralCode` is truthy, i.e.
present and non-empty (`if (referralCode)`) — the referrer lookup
(`findUnique` on `referralCode`), then `create`.  The `create` is guarded by
the database's unique constraints on `id`, `email` and `referralCode`: a
conflict raises, which the handler's `catch` turns into a generic 500
(`serverError`).  `newId`, `now` and `randStr` stand for the generated
`uuid()`, `now()` and `Math.random().toString(36)`. -/
def signup (emailOk : String → Bool) (store : List Subscriber)
    (newId : String) (now : Nat) (randStr : String) (b : Body) :
    SignupResult × List Subscriber :=
  match validateWaitlist emailOk b with
  | .error errs => (.validationError errs, store)
  | .ok d =>
    match store.find? (fun s => s.email == d.email) with
    | some _ => (.duplicateEmail, store)
    | none =>
      let referrerId? : Except Unit (Option String) :=
        match d.referralCode with
        | none => .ok none
        | some c =>
            if c = "" then .ok none
            else
              match store.find? (fun s => s.referralCode == c) with
              | none => .error ()
              | some r => .ok (some r.id)
      match referrerId? with
      | .error _ => (.invalidReferralCode, store)
      | .ok referrerId =>
        let newCode := generateUniqueCode randStr
        let newSub : Subscriber :=
          ⟨newId, d.email, d.name, newCode, referrerId, now, false⟩
        if store.any (fun s =>
            s.id == newId || s.email == d.email || s.referralCode == newCode) then
          (.serverError, store)
        else
          (.success newCode, store ++ [newSub])

/-- The count `GET` handler (count/route.ts): `prisma.subscriber.count()`. -/
def countSubscribers (store : List Subscriber) : Nat :=
  store.length

/-! ## Email masking

The referral-stats route masks each referred email with
`email.replace(/(.{2})(.*)(?=@)/, (_, start, rest) => start + '*'.repeat(rest.length))`.
The non-global regex replaces the leftmost match; `.` matches any character
except a JS line terminator; `(.*)` is greedy, so the match extends to the last
position whose next character is `@`; the lookahead `(?=@)` consumes nothing.
We model the match by its start `i` and its end `k` (the index of the `@` the
lookahead sees): a match at `i` ending at `k` needs `k ≥ i + 2`, `s[k] = '@'`,
and every character in `s[i..k)` matched by `.`. -/

/-- `true` when JS regex `.` (without the `s` flag) matches `c`:
any character but a line terminator (LF, CR, U+2028, U+2029). -/
def dotMatches (c : Char) : Bool :=
  c != '\n' && c != '\r' && c != Char.ofNat 0x2028 && c != Char.ofNat 0x2029

/-- A match of `(.{2})(.*)(?=@)` can start at `i` and end at `k`. -/
def canMatchAt (s : List Char) (i k : Nat) : Bool :=
  i + 2 ≤ k && k < s.length && s.getD k ' ' == '@' &&
    ((List.range (k - i)).all fun j => dotMatches (s.getD (i + j) ' '))

/-- Greedy end of a match starting at `i`: the largest admissible `k`. -/
def matchEnd (s : List Char) (i : Nat) : Option Nat :=
  ((List.range s.length).filter (canMatchAt s i)).getLast?

/-- Leftmost start of a match: the smallest `i` that admits some end. -/
def matchStart (s : List Char) : Option Nat :=
  (List.range s.length).find? (fun i => (matchEnd s i).isSome)

/-- `String.prototype.replace` with the masking regex and replacer, on the
character list: keep the two captured characters, star out the rest of the
match, leave everything outside the match unchanged.  No match leaves the
string unchanged. -/
def maskEmailChars (s : List Char) : List Char :=
  match matchStart s with
  | none => s
  | some i =>
    match matchEnd s i with
    | none => s
    | some k => s.take (i + 2) ++ List.replicate (k - (i + 2)) '*' ++ s.drop k

/-- The email-masking expression of the referral-stats route, on strings. -/
def maskEmail (s : String) : String :=
  ⟨maskEmailChars s.data⟩

/-! ## Referral-stats endpoint -/

/-- Outcome of the referral-stats `GET` handler.  A stats entry is the pair
`(date, masked email)` built by the route's `map`. -/
inductive StatsResult where
  | validationError
  | notFound
  | ok (totalReferrals : Nat) (referrals : List (Nat × String))
deriving Repr, DecidableEq

/-- The `referrals` relation included by the stats query: the rows whose
`referredBy` is `sub`'s `id` (schema relation `referredBy` → `id`),
in table order. -/
def referralsOf (store : List Subscriber) (sub : Subscriber) : List Subscriber :=
  store.filter (fun t => t.referredBy == some sub.id)

/-- The referral-stats `GET` handler: `searchParams.get('code')` (absent →
`none`), `referralQuerySchema` = `z.object({ code: z.string().min(3).max(20) })`
(no trimming), `findUnique` on `referralCode` with the `referrals` relation
included, then the stats object with `totalReferrals` and the masked list. -/
def referralStats (store : List Subscriber) (codeParam : Option String) :
    StatsResult :=
  match codeParam with
  | none => .validationError
  | some c =>
    if 3 ≤ c.length && c.length ≤ 20 then
      match store.find? (fun s => s.referralCode == c) with
      | none => .notFound
      | some sub =>
        let refs := referralsOf store sub
        .ok refs.length (refs.map fun r => (r.createdAt, maskEmail r.email))
    else .validationError

/-! ## Helper lemmas -/

/-- If some row of the table carries email `e`, a signup whose body passes
validation with email `e` stops at the duplicate-email check: the email
`findUnique` is the first store access after validation. -/
lemma signup_of_dup_email (emailOk : String → Bool) (store : List Subscriber)
    (newId : String) (now : Nat) (randStr : String) (b : Body) (e : String)
    (hb : b.email = some e) (hok : emailOk e = true)
    (s : Subscriber) (hs : s ∈ store) (hse : s.email = e) :
    signup emailOk store newId now randStr b = (.duplicateEmail, store) := by
  have hfind : (store.find? (fun t => t.email == e)).isSome := by
    rw [List.find?_isSome]
    exact ⟨s, hs, by simp [hse]⟩
  obtain ⟨t, ht⟩ := Option.isSome_iff_exists.mp hfind
  simp [signup, validateWaitlist, hb, hok, ht]

/-! ## Claims -/

/-- C1.  The generated referral code is NOT always 8 characters: with
`Math.random() = 0.5` we get `(0.5).toString(36) = "0.i"`, so
`generateUniqueCode` returns the single character `"I"`.  The signup still
succeeds and the count still rises by exactly 1, and the code is uppercase
alphanumeric, but its length is 1, contradicting the claimed (and the
route-comment's) length of 8. -/
theorem signup_generated_code_not_always_8_chars :
    signup (fun e => e == "user@example.com") [] "id1" 7 "0.i"
        ⟨some "user@example.com", none, none⟩ =
      (.success "I", [⟨"id1", "user@example.com", none, "I", none, 7, false⟩]) ∧
    countSubscribers (signup (fun e => e == "user@example.com") [] "id1" 7 "0.i"
        ⟨some "user@example.com", none, none⟩).2 = countSubscribers [] + 1 ∧
    generateUniqueCode "0.i" = "I" ∧ ("I" : String).length ≠ 8 := by
  decide

/-- C4 (counterexample).  A signup carrying both an already-present email and a
referral code matching no subscriber reports `duplicateEmail`, not
`invalidReferralCode`: the email-uniqueness check runs first. -/
theorem signup_dup_email_unknown_code_reports_duplicate :
    (signup (fun e => e == "a@b.cc")
        [⟨"A", "a@b.cc", none, "CODE1234", none, 0, false⟩] "B" 1 "0.4fzyo82mvyr"
        ⟨some "a@b.cc", none, some "ZZZZ"⟩).1 = .duplicateEmail ∧
    (signup (fun e => e == "a@b.cc")
        [⟨"A", "a@b.cc", none, "CODE1234", none, 0, false⟩] "B" 1 "0.4fzyo82mvyr"
        ⟨some "a@b.cc", none, some "ZZZZ"⟩).1 ≠ .invalidReferralCode := by
  decide

/-- C4 (amended).  The email-uniqueness check precedes the referral-code
lookup: any validated signup whose email is already present fails with
`duplicateEmail` and leaves the table unchanged, even when its referral code
matches no subscriber. -/
theorem signup_email_check_precedes_referral_check (emailOk : String → Bool)
    (store : List Subscriber) (newId : String) (now : Nat) (randStr : String)
    (b : Body) (e c : String)
    (hb : b.email = some e) (hok : emailOk e = true)
    (hc : b.referralCode = some c)
    (hnocode : ∀ s ∈ store, s.referralCode ≠ c)
    (s : Subscriber) (hs : s ∈ store) (hse : s.email = e) :
    signup emailOk store newId now randStr b = (.duplicateEmail, store) :=
  signup_of_dup_email emailOk store newId now randStr b e hb hok s hs hse

/-- C4 witness. -/
theorem signup_email_check_precedes_referral_check_witness :
    signup (fun e => e == "a@b.cc")
        [⟨"A", "a@b.cc", none, "CODE1234", none, 0, false⟩] "B" 1 "0.4fzyo82mvyr"
        ⟨some "a@b.cc", none, some "ZZZZ"⟩ =
      (.duplicateEmail, [⟨"A", "a@b.cc", none, "CODE1234", none, 0, false⟩]) :=
  signup_email_check_precedes_referral_check (fun e => e == "a@b.cc")
    [⟨"A", "a@b.cc", none, "CODE1234", none, 0, false⟩] "B" 1 "0.4fzyo82mvyr"
    ⟨some "a@b.cc", none, some "ZZZZ"⟩ "a@b.cc" "ZZZZ" rfl (by decide) rfl
    (by decide) ⟨"A", "a@b.cc", none, "CODE1234", none, 0, false⟩ (by decide) rfl

/-- C5.  A validated signup whose email is already on some row fails with
`duplicateEmail`, the table is unchanged (no new row), and a subsequent count
query returns the same value as before. -/
theorem signup_duplicate_email_no_row (emailOk : String → Bool)
    (store : List Subscriber) (newId : String) (now : Nat) (randStr : String)
    (b : Body) (e : String)
    (hb : b.email = some e) (hok : emailOk e = true)
    (s : Subscriber) (hs : s ∈ store) (hse : s.email = e) :
    (signup emailOk store newId now randStr b).1 = .duplicateEmail ∧
    (signup emailOk store newId now randStr b).2 = store ∧
    countSubscribers (signup emailOk store newId now randStr b).2 =
      countSubscribers store := by
  have h := signup_of_dup_email emailOk store newId now randStr b e hb hok s hs hse
  rw [h]
  exact ⟨rfl, rfl, rfl⟩

/-- C5 witness. -/
theorem signup_duplicate_email_no_row_witness :
    (signup (fun e => e == "a@b.cc")
        [⟨"A", "a@b.cc", none, "CODE1234", none, 0, false⟩] "B" 1 "0.4fzyo82mvyr"
        ⟨some "a@b.cc", some "Bob", none⟩).1 = .duplicateEmail ∧
    (signup (fun e => e == "a@b.cc")
        [⟨"A", "a@b.cc", none, "CODE1234", none, 0, false⟩] "B" 1 "0.4fzyo82mvyr"
        ⟨some "a@b.cc", some "Bob", none⟩).2 =
      [⟨"A", "a@b.cc", none, "CODE1234", none, 0, false⟩] ∧
    countSubscribers (signup (fun e => e == "a@b.cc")
        [⟨"A", "a@b.cc", none, "CODE1234", none, 0, false⟩] "B" 1 "0.4fzyo82mvyr"
        ⟨some "a@b.cc", some "Bob", none⟩).2 =
      countSubscribers [⟨"A", "a@b.cc", none, "CODE1234", none, 0, false⟩] :=
  signup_duplicate_email_no_row (fun e => e == "a@b.cc")
    [⟨"A", "a@b.cc", none, "CODE1234", none, 0, false⟩] "B" 1 "0.4fzyo82mvyr"
    ⟨some "a@b.cc", some "Bob", none⟩ "a@b.cc" rfl (by decide)
    ⟨"A", "a@b.cc", none, "CODE1234", none, 0, false⟩ (by decide) rfl

/-- C6 (counterexample).  A signup that supplies `referralCode: ""` — a
referral code matching no subscriber (the store is empty) — nevertheless
succeeds and creates a row: `if (referralCode)` treats the empty string as
absent (JS falsiness), so the lookup is skipped. -/
theorem signup_empty_referral_code_succeeds :
    (signup (fun e => e == "a@b.cc") [] "A" 0 "0.4fzyo82mvyr"
        ⟨some "a@b.cc", none, some ""⟩).1 = .success "4FZYO82M" ∧
    (signup (fun e => e == "a@b.cc") [] "A" 0 "0.4fzyo82mvyr"
        ⟨some "a@b.cc", none, some ""⟩).2 =
      [⟨"A", "a@b.cc", none, "4FZYO82M", none, 0, false⟩] ∧
    ∀ s : Subscriber, s ∈ ([] : List Subscriber) → s.referralCode ≠ "" := by
  decide

/-- C6 (amended).  A validated signup with a fresh email that supplies a
NON-EMPTY referral code matching no subscriber fails with
`invalidReferralCode` and creates no row; an empty-string referral code is
instead treated as if no code were supplied. -/
theorem signup_unknown_nonempty_code_fails (emailOk : String → Bool)
    (store : List Subscriber) (newId : String) (now : Nat) (randStr : String)
    (b : Body) (e c : String)
    (hb : b.email = some e) (hok : emailOk e = true)
    (hc : b.referralCode = some c) (hcne : c ≠ "")
    (hemail : ∀ s ∈ store, s.email ≠ e)
    (hcode : ∀ s ∈ store, s.referralCode ≠ c) :
    signup emailOk store newId now randStr b = (.invalidReferralCode, store) := by
  have hfe : store.find? (fun t => t.email == e) = none := by
    rw [List.find?_eq_none]
    intro x hx
    simp [hemail x hx]
  have hfc : store.find? (fun t => t.referralCode == c) = none := by
    rw [List.find?_eq_none]
    intro x hx
    simp [hcode x hx]
  simp [signup, validateWaitlist, hb, hok, hfe, hc, hcne, hfc]

/-- C6 witness. -/
theorem signup_unknown_nonempty_code_fails_witness :
    signup (fun e => e == "b@b.cc")
        [⟨"A", "a@b.cc", none, "CODE1234", none, 0, false⟩] "B" 1 "0.4fzyo82mvyr"
        ⟨some "b@b.cc", none, some "ZZZZ"⟩ =
      (.invalidReferralCode, [⟨"A", "a@b.cc", none, "CODE1234", none, 0, false⟩]) :=
  signup_unknown_nonempty_code_fails (fun e => e == "b@b.cc")
    [⟨"A", "a@b.cc", none, "CODE1234", none, 0, false⟩] "B" 1 "0.4fzyo82mvyr"
    ⟨some "b@b.cc", none, some "ZZZZ"⟩ "b@b.cc" "ZZZZ" rfl (by decide) rfl
    (by decide) (by decide) (by decide)

/-- When validation has produced a parsed body, no later branch of the signup
handler can answer with a validation error: the remaining outcomes are
`duplicateEmail`, `invalidReferralCode`, `serverError` and `success`. -/
lemma signup_fst_ne_validationError_of_ok
    (emailOk : String → Bool) (store : List Subscriber) (newId : String)
    (now : Nat) (randStr : String) (b : Body) (d : ParsedData)
    (hv : validateWaitlist emailOk b = .ok d) (errs : List String) :
    (signup emailOk store newId now randStr b).1 ≠ .validationError errs := by
  simp only [signup, hv]
  split
  · simp
  · split
    · simp
    · split <;> simp

/-- C3 (counterexample).  A signup whose `name` is the empty string — length 0,
outside the claimed bounds `[1,100]` — is NOT rejected: it succeeds and creates
a row, because `waitlistSchema` declares `name: z.string().optional()` with no
length constraint. -/
theorem signup_accepts_out_of_bounds_name :
    (signup (fun e => e == "user@example.com") [] "A" 0 "0.4fzyo82mvyr"
        ⟨some "user@example.com", some "", none⟩).1 = .success "4FZYO82M" ∧
    ("" : String).length = 0 := by
  decide

/-- C3 (amended).  The signup handler fails with `validationError` (leaving the
table untouched) exactly when the email field is absent or rejected by the
email-format test; no email-length bounds and no constraints on `name` are
enforced. -/
theorem signup_validation_error_iff (emailOk : String → Bool)
    (store : List Subscriber) (newId : String) (now : Nat) (randStr : String)
    (b : Body) :
    (∃ errs, signup emailOk store newId now randStr b =
        (.validationError errs, store)) ↔
      (b.email = none ∨ ∃ e, b.email = some e ∧ emailOk e = false) := by
  cases hbe : b.email with
  | none =>
    constructor
    · intro _
      exact Or.inl rfl
    · intro _
      exact ⟨["Required"], by simp [signup, validateWaitlist, hbe]⟩
  | some e =>
    cases hok : emailOk e with
    | true =>
      constructor
      · rintro ⟨errs, h⟩
        have hv : validateWaitlist emailOk b = .ok ⟨e, b.name, b.referralCode⟩ := by
          simp [validateWaitlist, hbe, hok]
        have hne := signup_fst_ne_validationError_of_ok emailOk store newId now
          randStr b _ hv errs
        exact absurd (by rw [h]) hne
      · rintro (h | ⟨e', he', hf⟩)
        · exact Option.noConfusion h
        · injection he' with he''
          subst he''
          rw [hok] at hf
          exact Bool.noConfusion hf
    | false =>
      constructor
      · intro _
        exact Or.inr ⟨e, rfl, hok⟩
      · intro _
        exact ⟨["Please enter a valid email address"],
          by simp [signup, validateWaitlist, hbe, hok]⟩

/-- C8 (counterexample).  The stats route does NOT trim the code before the
shape check: `"  a"` has raw length 3 (accepted by `z.string().min(3).max(20)`)
but length 1 after trimming surrounding whitespace, so the claim demands
`validationError`; the code instead performs the lookup and reports
`notFound`. -/
theorem stats_code_not_trimmed_cex :
    referralStats [] (some "  a") = .notFound ∧
    (("  a".data.dropWhile Char.isWhitespace).reverse.dropWhile
        Char.isWhitespace).reverse.length = 1 ∧
    ("  a" : String).length = 3 := by
  decide

/-- C8 (amended).  The stats route rejects a supplied code with
`validationError` exactly when its RAW length (no trimming) lies outside
`[3,20]`; the outcome of the shape check is the same for every store, i.e. it
happens before any store lookup. -/
theorem stats_validation_error_iff_raw_length (store : List Subscriber)
    (c : String) :
    referralStats store (some c) = .validationError ↔
      ¬(3 ≤ c.length ∧ c.length ≤ 20) := by
  by_cases h : 3 ≤ c.length ∧ c.length ≤ 20
  · obtain ⟨h3, h20⟩ := h
    cases hf : store.find? (fun s => s.referralCode == c) <;>
      simp [referralStats, h3, h20, hf]
  · have h' : ¬(3 ≤ c.length) ∨ ¬(c.length ≤ 20) := by tauto
    rcases h' with h' | h' <;> simp [referralStats, h']

/-- C9.  A shape-valid code (raw length in `[3,20]`) matching no subscriber's
`referralCode` makes the stats route answer `notFound` — in particular it never
returns a stats object, empty or otherwise. -/
theorem stats_unknown_code_not_found (store : List Subscriber) (c : String)
    (h3 : 3 ≤ c.length) (h20 : c.length ≤ 20)
    (hcode : ∀ s ∈ store, s.referralCode ≠ c) :
    referralStats store (some c) = .notFound ∧
    ∀ n refs, referralStats store (some c) ≠ .ok n refs := by
  have hfc : store.find? (fun t => t.referralCode == c) = none := by
    rw [List.find?_eq_none]
    intro x hx
    simp [hcode x hx]
  have hmain : referralStats store (some c) = .notFound := by
    simp [referralStats, h3, h20, hfc]
  refine ⟨hmain, ?_⟩
  intro n refs h
  rw [hmain] at h
  cases h

/-- C9 witness. -/
theorem stats_unknown_code_not_found_witness :
    referralStats [⟨"A", "a@b.cc", none, "CODE1234", none, 0, false⟩]
      (some "UNKNOWN1") = .notFound :=
  (stats_unknown_code_not_found
    [⟨"A", "a@b.cc", none, "CODE1234", none, 0, false⟩] "UNKNOWN1"
    (by decide) (by decide) (by decide)).1

/-- C10 (counterexample).  A store reached by a single signup whose
`Math.random()` was `0.25` (base-36 string `"0.9"`) holds one subscriber with
referral code `"9"` and no referrals; the stats lookup for that code does not
succeed with zero referrals but fails the 3-character shape check. -/
theorem stats_short_code_lookup_fails_cex :
    (signup (fun e => e == "a@b.cc") [] "A" 0 "0.9"
        ⟨some "a@b.cc", none, none⟩).2 =
      [⟨"A", "a@b.cc", none, "9", none, 0, false⟩] ∧
    referralStats [⟨"A", "a@b.cc", none, "9", none, 0, false⟩] (some "9") =
      .validationError ∧
    (∀ t : Subscriber, t ∈ [(⟨"A", "a@b.cc", none, "9", none, 0, false⟩ : Subscriber)] →
      t.referredBy ≠ some "A") := by
  decide

/-- C10 (amended).  For a subscriber found by the code lookup whose code also
passes the 3–20 shape check, and whom no row names as referrer, the stats
route succeeds with `totalReferrals = 0` and an empty referrals list. -/
theorem stats_known_code_no_referrals (store : List Subscriber) (c : String)
    (sub : Subscriber)
    (hf : store.find? (fun s => s.referralCode == c) = some sub)
    (h3 : 3 ≤ c.length) (h20 : c.length ≤ 20)
    (hnoref : ∀ t ∈ store, t.referredBy ≠ some sub.id) :
    referralStats store (some c) = .ok 0 [] := by
  simp only [referralStats, h3, h20, hf, referralsOf]
  simp [h3, h20]
  exact hnoref

/-- C10 witness. -/
theorem stats_known_code_no_referrals_witness :
    referralStats [⟨"A", "a@b.cc", none, "CODE1234", none, 0, false⟩]
      (some "CODE1234") = .ok 0 [] :=
  stats_known_code_no_referrals
    [⟨"A", "a@b.cc", none, "CODE1234", none, 0, false⟩] "CODE1234"
    ⟨"A", "a@b.cc", none, "CODE1234", none, 0, false⟩
    (by decide) (by decide) (by decide) (by decide)

/-- A `filter` over `range m` whose predicate holds exactly at `n < m`
returns `[n]`. -/
lemma filter_range_eq_single : ∀ (m n : Nat) (p : Nat → Bool), n < m →
    p n = true → (∀ k, k < m → k ≠ n → p k = false) →
    (List.range m).filter p = [n] := by
  intro m
  induction m with
  | zero =>
    intro n p hn _ _
    omega
  | succ m ih =>
    intro n p hn hpn hother
    rw [List.range_succ, List.filter_append]
    by_cases hmn : n = m
    · subst hmn
      have h1 : (List.range n).filter p = [] := by
        rw [List.filter_eq_nil_iff]
        intro a ha
        have halt : a < n := List.mem_range.mp ha
        simp [hother a (Nat.lt_succ_of_lt halt) (Nat.ne_of_lt halt)]
      rw [h1]
      simp [List.filter_cons, hpn]
    · have hn' : n < m := by omega
      rw [ih n p hn' hpn (fun k hk hkn => hother k (Nat.lt_succ_of_lt hk) hkn)]
      have hm : p m = false := hother m (Nat.lt_succ_self m) (fun h => hmn h.symm)
      simp [List.filter_cons, hm]

/-- A `find?` over `range m` whose predicate holds at `0` returns `0`. -/
lemma find?_range_eq_zero (m : Nat) (q : Nat → Bool) (hm : 0 < m)
    (hq : q 0 = true) : (List.range m).find? q = some 0 := by
  cases m with
  | zero => omega
  | succ m =>
    rw [List.range_succ_eq_map]
    exact List.find?_cons_of_pos _ hq


/-- On `local-part ++ "@" ++ domain` with a local part of length at least 2
whose characters are all matched by `.`, the masking regex can match from
position 0 with its lookahead on the `'@'`. -/
lemma canMatchAt_at_start (lp dom : List Char) (h2 : 2 ≤ lp.length)
    (hdot : ∀ ch ∈ lp, dotMatches ch = true) :
    canMatchAt (lp ++ '@' :: dom) 0 lp.length = true := by
  simp only [canMatchAt, Bool.and_eq_true, decide_eq_true_eq, beq_iff_eq,
    List.all_eq_true, List.mem_range]
  have hlen : (lp ++ '@' :: dom).length = lp.length + (dom.length + 1) := by
    simp
  refine ⟨⟨⟨by omega, by omega⟩, ?_⟩, ?_⟩
  · rw [List.getD_append_right lp ('@' :: dom) ' ' lp.length (Nat.le_refl _)]
    simp
  · intro j hj
    have hj' : j < lp.length := by omega
    rw [Nat.zero_add, List.getD_append lp ('@' :: dom) ' ' j hj']
    rw [List.getD_eq_getElem lp ' ' hj']
    exact hdot _ (List.getElem_mem hj')

/-- When `'@'` occurs nowhere in the local part or the domain, no end other
than the position of the unique `'@'` admits a match from position 0: every
other index holds a non-`'@'` character for the lookahead. -/
lemma canMatchAt_false_elsewhere (lp dom : List Char)
    (hat : '@' ∉ lp) (hdat : '@' ∉ dom) :
    ∀ k, k < (lp ++ '@' :: dom).length → k ≠ lp.length →
      canMatchAt (lp ++ '@' :: dom) 0 k = false := by
  intro k hk hkn
  have hne : (lp ++ '@' :: dom).getD k ' ' ≠ '@' := by
    by_cases hklt : k < lp.length
    · rw [List.getD_append lp ('@' :: dom) ' ' k hklt,
        List.getD_eq_getElem lp ' ' hklt]
      intro h
      exact hat (h ▸ List.getElem_mem hklt)
    · have hkgt : lp.length < k := by omega
      rw [List.getD_append_right lp ('@' :: dom) ' ' k (by omega)]
      have hsub : k - lp.length = (k - lp.length - 1) + 1 := by omega
      rw [hsub, List.getD_cons_succ]
      have hdlt : k - lp.length - 1 < dom.length := by
        have hlen : (lp ++ '@' :: dom).length = lp.length + (dom.length + 1) := by
          simp
        omega
      rw [List.getD_eq_getElem dom ' ' hdlt]
      intro h
      exact hdat (h ▸ List.getElem_mem hdlt)
  have hb : ((lp ++ '@' :: dom).getD k ' ' == '@') = false :=
    beq_eq_false_iff_ne.mpr hne
  unfold canMatchAt
  rw [hb]
  simp


/-- Masking on `local-part ++ "@" ++ domain` (single `'@'`, local part of
length ≥ 2 made of `.`-matchable characters): the leftmost match starts at 0,
its greedy end is the `'@'`, and the replacement keeps the first two
characters, stars the rest of the local part one-for-one, and leaves the
domain untouched. -/
lemma maskEmailChars_append (lp dom : List Char) (h2 : 2 ≤ lp.length)
    (hat : '@' ∉ lp) (hdot : ∀ ch ∈ lp, dotMatches ch = true)
    (hdat : '@' ∉ dom) :
    maskEmailChars (lp ++ '@' :: dom) =
      lp.take 2 ++ List.replicate (lp.length - 2) '*' ++ '@' :: dom := by
  have hlen : (lp ++ '@' :: dom).length = lp.length + (dom.length + 1) := by
    simp
  have hC : matchEnd (lp ++ '@' :: dom) 0 = some lp.length := by
    rw [matchEnd, filter_range_eq_single (lp ++ '@' :: dom).length lp.length
      (canMatchAt (lp ++ '@' :: dom) 0) (by omega)
      (canMatchAt_at_start lp dom h2 hdot)
      (canMatchAt_false_elsewhere lp dom hat hdat)]
    rfl
  have hD : matchStart (lp ++ '@' :: dom) = some 0 := by
    rw [matchStart]
    apply find?_range_eq_zero
    · omega
    · rw [hC]
      rfl
  unfold maskEmailChars
  rw [hD]
  dsimp only
  rw [hC]
  dsimp only
  have htake : (lp ++ '@' :: dom).take (0 + 2) = lp.take 2 := by
    rw [Nat.zero_add, List.take_append_eq_append_take]
    have : 2 - lp.length = 0 := by omega
    rw [this]
    simp
  have hdrop : (lp ++ '@' :: dom).drop lp.length = '@' :: dom :=
    List.drop_left lp ('@' :: dom)
  rw [htake, hdrop, Nat.zero_add]


/-- C2.  For every email of the shape `local ++ "@" ++ domain` — a single
`'@'`, a local part of at least 2 characters none of which is a line
terminator, as any referred subscriber's stored email is — the route's masking
keeps the first two characters of the local part, replaces each remaining
local-part character one-for-one with `'*'`, and leaves the domain unchanged.
In particular 7 stars for `johnsmith@example.com`, and a 2-character local
part is returned unchanged (witness below). -/
theorem maskEmail_masks_local_part (lp dom : List Char) (h2 : 2 ≤ lp.length)
    (hat : '@' ∉ lp) (hdot : ∀ ch ∈ lp, dotMatches ch = true)
    (hdat : '@' ∉ dom) :
    maskEmail ⟨lp ++ '@' :: dom⟩ =
      ⟨lp.take 2 ++ List.replicate (lp.length - 2) '*' ++ '@' :: dom⟩ := by
  show (⟨maskEmailChars (lp ++ '@' :: dom)⟩ : String) = _
  rw [maskEmailChars_append lp dom h2 hat hdot hdat]

/-- C2 witness: the two examples named by the claim. -/
theorem maskEmail_masks_local_part_witness :
    maskEmail "johnsmith@example.com" = "jo*******@example.com" ∧
    maskEmail "ab@example.com" = "ab@example.com" := by
  have h1 := maskEmail_masks_local_part "johnsmith".data "example.com".data
    (by decide) (by decide) (by decide) (by decide)
  have h2 := maskEmail_masks_local_part "ab".data "example.com".data
    (by decide) (by decide) (by decide) (by decide)
  constructor
  · have e1 : ("johnsmith@example.com" : String) =
        ⟨"johnsmith".data ++ '@' :: "example.com".data⟩ := by decide
    rw [e1, h1]
    decide
  · have e2 : ("ab@example.com" : String) =
        ⟨"ab".data ++ '@' :: "example.com".data⟩ := by decide
    rw [e2, h2]
    decide


/-- C7 (amended).  A validated signup with a fresh email, fresh generated id
and code, that supplies the (non-empty) referral code of the subscriber `S`
found by the lookup: the created row's `referredBy` is `S.id`, and — provided
`S`'s code also passes the stats route's 3–20 shape check — the stats query
for that code afterwards reports `totalReferrals` exactly one greater than
before, with the new subscriber's masked email appended to the referrals
list. -/
theorem signup_valid_referral_updates_stats (emailOk : String → Bool)
    (store : List Subscriber) (newId : String) (now : Nat) (randStr : String)
    (b : Body) (e c : String) (S : Subscriber)
    (hb : b.email = some e) (hok : emailOk e = true)
    (hc : b.referralCode = some c) (hcne : c ≠ "")
    (hfr : store.find? (fun s => s.referralCode == c) = some S)
    (hemail : ∀ s ∈ store, s.email ≠ e)
    (hid : ∀ s ∈ store, s.id ≠ newId)
    (hnewcode : ∀ s ∈ store, s.referralCode ≠ generateUniqueCode randStr)
    (h3 : 3 ≤ c.length) (h20 : c.length ≤ 20) :
    signup emailOk store newId now randStr b =
      (.success (generateUniqueCode randStr),
        store ++ [⟨newId, e, b.name, generateUniqueCode randStr, some S.id, now,
          false⟩]) ∧
    referralStats store (some c) =
      .ok (referralsOf store S).length
        ((referralsOf store S).map (fun r => (r.createdAt, maskEmail r.email))) ∧
    referralStats
        (store ++ [⟨newId, e, b.name, generateUniqueCode randStr, some S.id, now,
          false⟩]) (some c) =
      .ok ((referralsOf store S).length + 1)
        ((referralsOf store S).map (fun r => (r.createdAt, maskEmail r.email)) ++
          [(now, maskEmail e)]) := by
  have hfe : store.find? (fun t => t.email == e) = none := by
    rw [List.find?_eq_none]
    intro x hx
    simp [hemail x hx]
  have hany : (store.any (fun s => s.id == newId || s.email == e ||
      s.referralCode == generateUniqueCode randStr)) = false := by
    rw [List.any_eq_false]
    intro x hx
    simp [hid x hx, hemail x hx, hnewcode x hx]
  refine ⟨?_, ?_, ?_⟩
  · simp [signup, validateWaitlist, hb, hok, hfe, hc, hcne, hfr, hany]
  · simp [referralStats, h3, h20, hfr, referralsOf]
  · have hfind2 : (store ++ [(⟨newId, e, b.name, generateUniqueCode randStr,
        some S.id, now, false⟩ : Subscriber)]).find? (fun s => s.referralCode == c) = some S := by
      rw [List.find?_append, hfr]
      rfl
    have hfilter : referralsOf (store ++ [⟨newId, e, b.name,
        generateUniqueCode randStr, some S.id, now, false⟩]) S =
        referralsOf store S ++ [⟨newId, e, b.name, generateUniqueCode randStr,
          some S.id, now, false⟩] := by
      rw [referralsOf, referralsOf, List.filter_append]
      congr 1
      simp
    simp only [referralStats, hfind2, hfilter]
    simp [h3, h20]


/-- C7 (counterexample).  Referrer `"A"` holds the 1-character generated
code `"9"` (possible per C1).  A signup using that code succeeds and the new
row's `referredBy` is `"A"` — but the subsequent stats query for the code
fails the 3-character shape check with `validationError` instead of reporting
`totalReferrals = 1`. -/
theorem referred_signup_short_code_stats_cex :
    signup (fun e => e == "b@b.cc") [⟨"A", "a@b.cc", none, "9", none, 0, false⟩]
        "B" 5 "0.4fzyo82mvyr" ⟨some "b@b.cc", none, some "9"⟩ =
      (.success "4FZYO82M",
        [⟨"A", "a@b.cc", none, "9", none, 0, false⟩,
         ⟨"B", "b@b.cc", none, "4FZYO82M", some "A", 5, false⟩]) ∧
    referralStats
        [⟨"A", "a@b.cc", none, "9", none, 0, false⟩,
         ⟨"B", "b@b.cc", none, "4FZYO82M", some "A", 5, false⟩] (some "9") =
      .validationError := by
  decide

/-- C7 witness. -/
theorem signup_valid_referral_updates_stats_witness :
    signup (fun e => e == "newguy@b.cc")
        [⟨"A", "a@b.cc", none, "CODE1234", none, 0, false⟩] "B" 5
        "0.4fzyo82mvyr" ⟨some "newguy@b.cc", some "Bob", some "CODE1234"⟩ =
      (.success "4FZYO82M",
        [⟨"A", "a@b.cc", none, "CODE1234", none, 0, false⟩,
         ⟨"B", "newguy@b.cc", some "Bob", "4FZYO82M", some "A", 5, false⟩]) ∧
    referralStats [⟨"A", "a@b.cc", none, "CODE1234", none, 0, false⟩]
        (some "CODE1234") = .ok 0 [] ∧
    referralStats
        [⟨"A", "a@b.cc", none, "CODE1234", none, 0, false⟩,
         ⟨"B", "newguy@b.cc", some "Bob", "4FZYO82M", some "A", 5, false⟩]
        (some "CODE1234") = .ok 1 [(5, "ne****@b.cc")] :=
  signup_valid_referral_updates_stats (fun e => e == "newguy@b.cc")
    [⟨"A", "a@b.cc", none, "CODE1234", none, 0, false⟩] "B" 5 "0.4fzyo82mvyr"
    ⟨some "newguy@b.cc", some "Bob", some "CODE1234"⟩ "newguy@b.cc" "CODE1234"
    ⟨"A", "a@b.cc", none, "CODE1234", none, 0, false⟩ rfl (by decide) rfl
    (by decide) (by decide) (by decide) (by decide) (by decide) (by decide)
    (by decide)

end Waitlist
